import Mathlib

/-!
Shallow embedding of the decision core of the `Group09_Agent` negotiation
agent (files `agents/group09_agent/Group09_Agent.py` and
`agents/group09_agent/utils/acceptance_condition.py`) and a verification
of the specification claims about it.

Conventions of the embedding:
* Python floats are modelled as rationals (`ℚ`).
* A `Bid` is the list of chosen value indices, one per issue.  The external
  geniusweb collaborators (the domain enumeration `AllBidsList(domain)` and
  the linear-additive self-utility profile behind `evaluate_bid`) are
  modelled as an environment record carrying the enumerated bid space and
  the pure self-utility function, matching the external-interface contract
  of the spec (enumerable bid space, pure `Bid → [0,1]` utility).
* Python exceptions are modelled with `Except`: `ZeroDivisionError` from
  `(1 - mu) / own_utility` in `get_target_utility` and from
  `matches / len(bid1.getIssues())` in `compute_similarity`, and
  `IndexError` from `candidate_bids[0]` on an empty list in `find_bid`.
  The constructor `emptyBidSpaceError` exists only so that the spec's
  named failure mode `EmptyBidSpaceError` is expressible; the code never
  produces it.
* `should_accept`, `find_bid` and `score_bid` read the progress clock
  through `calculate_progress`; the elapsed-time fraction `t` is passed
  explicitly to the embedded functions.
-/

namespace Group09

/-- A bid: one value index per issue (a bid maps every issue to exactly one
value of that issue's domain). -/
abbrev Bid := List ℕ

/-- Python exceptions reachable from the embedded code, plus the spec's
`EmptyBidSpaceError` (which the code itself never raises). -/
inductive PyError where
  | zeroDivisionError
  | indexError
  | emptyBidSpaceError
  deriving DecidableEq

/-- The fixed external collaborators and configuration of one session:
the enumerated bid space (`AllBidsList(domain)`), the pure self-utility
profile (`evaluate_bid`, i.e. `profile.getUtility`), the opponent model's
predicted-utility estimate, and the configuration constants `mu`
(reserve), `T` (acceptance time threshold) and `use_average`. -/
structure Env where
  allBids : List Bid
  u : Bid → ℚ
  /-- Modelled from the spec: `utils/opponent_model.py`
  (`OpponentModel.get_predicted_utility`) is imported by the agent but is
  not among the sources under verification; per the spec it answers
  "predicted utility of bid B for the opponent" as a deterministic pure
  estimate in `[0,1]`, so it is abstracted as this fixed function. -/
  opp : Bid → ℚ
  mu : ℚ
  T : ℚ
  useAverage : Bool

/-- The mutable fields of `Group09_Agent` and of its `AcceptanceCondition`
that the decision core reads and writes. -/
structure AgentState where
  lastReceivedBid : Option Bid
  lastSentBid : Option Bid
  hasOpponentModel : Bool
  maxUtilityReceived : ℚ
  totalUtilityReceived : ℚ
  numberOfBidsReceived : ℕ
  lastPredictedBidUtility : Option ℚ
  deriving DecidableEq

/-- The agent state right after construction. -/
def initState : AgentState :=
  { lastReceivedBid := none
    lastSentBid := none
    hasOpponentModel := false
    maxUtilityReceived := 0
    totalUtilityReceived := 0
    numberOfBidsReceived := 0
    lastPredictedBidUtility := none }

/-- `AcceptanceCondition.update_received_bid_utility`. -/
def update_received_bid_utility (s : AgentState) (bid_utility : ℚ) : AgentState :=
  { s with
    maxUtilityReceived := max s.maxUtilityReceived bid_utility
    totalUtilityReceived := s.totalUtilityReceived + bid_utility
    numberOfBidsReceived := s.numberOfBidsReceived + 1 }

/-- `AcceptanceCondition.get_acceptance_threshold`: the running average of
received-bid self-utilities when `use_average` holds and at least one bid
was received, the running max otherwise. -/
def get_acceptance_threshold (env : Env) (s : AgentState) : ℚ :=
  if env.useAverage && decide (0 < s.numberOfBidsReceived) then
    s.totalUtilityReceived / (s.numberOfBidsReceived : ℚ)
  else
    s.maxUtilityReceived

/-- `Group09_Agent.get_target_utility`: `1.0` when the last sent or the
last received bid is missing (first turn); otherwise the ratio-based
concession `own + ((1-mu)/own) * (opp(lastReceived) - own)`, raising
`ZeroDivisionError` when `own = 0`. -/
def get_target_utility (env : Env) (s : AgentState) : Except PyError ℚ :=
  match s.lastSentBid, s.lastReceivedBid with
  | none, _ => .ok 1
  | some _, none => .ok 1
  | some sent, some recv =>
    let opponent_utility := env.opp recv
    let own_utility := env.u sent
    if own_utility = 0 then .error .zeroDivisionError
    else .ok (own_utility + ((1 - env.mu) / own_utility) * (opponent_utility - own_utility))

/-- `Group09_Agent.compute_similarity`: fraction of issues on which the two
bids agree; `ZeroDivisionError` on a bid with zero issues. -/
def compute_similarity (bid1 bid2 : Bid) : Except PyError ℚ :=
  if bid1.length = 0 then .error .zeroDivisionError
  else
    .ok (((bid1.zip bid2).countP (fun p => p.1 = p.2) : ℚ) / (bid1.length : ℚ))

/-- `Group09_Agent.score_bid` with its default arguments `alpha = 0.95` and
`eps = 0.1` (so `progress ** (1/eps)` is `t ^ 10`), at elapsed-time
fraction `t`; the opponent-utility term is added only when the opponent
model has been created. -/
def score_bid (env : Env) (t : ℚ) (s : AgentState) (bid : Bid) : ℚ :=
  let time_pressure := 1 - t ^ (10 : ℕ)
  let score := (95 / 100) * time_pressure * env.u bid
  if s.hasOpponentModel then
    score + (1 - (95 / 100) * time_pressure) * env.opp bid
  else
    score

/-- The similarity key computed for each candidate during the sort in
`find_bid`; an exception raised while computing a key propagates. -/
def keyBySimilarity (recv : Bid) : List Bid → Except PyError (List (Bid × ℚ))
  | [] => .ok []
  | b :: l => do
    let k ← compute_similarity b recv
    let rest ← keyBySimilarity recv l
    .ok ((b, k) :: rest)

/-- First element of a keyed list attaining the maximal key: the head of a
stable descending sort by that key, i.e. `candidate_bids[0]` after
`candidate_bids.sort(key=..., reverse=True)`. -/
def pickFirstMax : List (Bid × ℚ) → Option (Bid × ℚ)
  | [] => none
  | (b, k) :: rest =>
    match pickFirstMax rest with
    | none => some (b, k)
    | some (b', k') => if k < k' then some (b', k') else some (b, k)

/-- The candidate chain of `Group09_Agent.find_bid`: the iso-utility band
of `±0.05` around the target, else all bids of self-utility at least the
target, else the full bid space. -/
def candidate_bids (env : Env) (target_utility : ℚ) : List Bid :=
  let tolerance : ℚ := 5 / 100
  let c1 := env.allBids.filter (fun b => |env.u b - target_utility| ≤ tolerance)
  let c2 := if c1.isEmpty then env.allBids.filter (fun b => target_utility ≤ env.u b) else c1
  if c2.isEmpty then env.allBids else c2

/-- The body of `Group09_Agent.find_bid` after `target_utility` has been
computed: build the candidate chain, rank by similarity to the last
received bid when one exists and by `score_bid` otherwise, then take the
top candidate (`candidate_bids[0]`, an `IndexError` when the chain is
empty) and record it as `last_sent_bid`. -/
def find_bid_from_target (env : Env) (t : ℚ) (s : AgentState) (target_utility : ℚ) :
    Except PyError (Bid × AgentState) := do
  let keyed ←
    match s.lastReceivedBid with
    | some recv => keyBySimilarity recv (candidate_bids env target_utility)
    | none => .ok ((candidate_bids env target_utility).map (fun b => (b, score_bid env t s b)))
  match pickFirstMax keyed with
  | none => .error .indexError
  | some (b, _) => .ok (b, { s with lastSentBid := some b })

/-- `Group09_Agent.find_bid` at elapsed-time fraction `t`. -/
def find_bid (env : Env) (t : ℚ) (s : AgentState) : Except PyError (Bid × AgentState) := do
  let target ← get_target_utility env s
  find_bid_from_target env t s target

/-- `AcceptanceCondition.should_accept` at elapsed-time fraction `t`
(`progress = agent.calculate_progress()`); returns the decision together
with the updated agent state. -/
def should_accept (env : Env) (t : ℚ) (s : AgentState) (bid : Option Bid) :
    Except PyError (Bool × AgentState) :=
  match bid with
  | none => .ok (false, s)
  | some b => do
    let progress := t
    let bid_utility := env.u b
    let s1 := update_received_bid_utility s bid_utility
    let time_condition_met := decide (env.T < progress)
    let avg_threshold := get_acceptance_threshold env s1
    let const_condition_met := decide (avg_threshold ≤ bid_utility)
    let (cached, s2) ←
      match s1.lastPredictedBidUtility with
      | some c => .ok (c, s1)
      | none => do
        let (nb, s') ← find_bid env t s1
        let c := env.u nb
        .ok (c, { s' with lastPredictedBidUtility := some c })
    let next_condition_met := decide (cached ≤ bid_utility)
    .ok (next_condition_met || (time_condition_met && const_condition_met), s2)

/-- `opponent_action` on an `Offer`: create the opponent model if absent,
update it (the model's estimate is the fixed function `Env.opp`, see its
doc comment) and store the bid as last received; an event without an
offer leaves the state unchanged. -/
def receive (s : AgentState) (ob : Option Bid) : AgentState :=
  match ob with
  | none => s
  | some bid => { s with lastReceivedBid := some bid, hasOpponentModel := true }

/-- The action the agent emits on its turn. -/
inductive TurnAction where
  | accept (b : Bid)
  | offer (b : Bid)
  deriving DecidableEq

/-- One `my_turn` of the engine as a relation: accept the last received bid
when `should_accept` says so, otherwise send the bid found by `find_bid`
(recorded as last sent); when no bid has been received yet, `should_accept`
is not consulted (Python `if self.last_received_bid and ...`). -/
inductive TurnStep (env : Env) (t : ℚ) (s : AgentState) : TurnAction → AgentState → Prop where
  | accept (b : Bid) (s1 : AgentState)
      (hrb : s.lastReceivedBid = some b)
      (hacc : should_accept env t s (some b) = .ok (true, s1)) :
      TurnStep env t s (.accept b) s1
  | counter (b : Bid) (s1 : AgentState) (nb : Bid) (s2 : AgentState)
      (hrb : s.lastReceivedBid = some b)
      (hacc : should_accept env t s (some b) = .ok (false, s1))
      (hfb : find_bid env t s1 = .ok (nb, s2)) :
      TurnStep env t s (.offer nb) s2
  | firstOffer (nb : Bid) (s2 : AgentState)
      (hrb : s.lastReceivedBid = none)
      (hfb : find_bid env t s = .ok (nb, s2)) :
      TurnStep env t s (.offer nb) s2

/-- A whole session: each round delivers an optional opponent offer and a
clock reading, then the agent takes its turn. -/
inductive SessionRun (env : Env) :
    List (Option Bid × ℚ) → AgentState → List TurnAction → AgentState → Prop where
  | nil (s : AgentState) : SessionRun env [] s [] s
  | cons (ob : Option Bid) (t : ℚ) (rest : List (Option Bid × ℚ)) (s s1 : AgentState)
      (a : TurnAction) (acts : List TurnAction) (s2 : AgentState)
      (hstep : TurnStep env t (receive s ob) a s1)
      (hrest : SessionRun env rest s1 acts s2) :
      SessionRun env ((ob, t) :: rest) s (a :: acts) s2

/-- The spec's time-based concession curve `μ + (1-μ)·(1 - t^β)`
(written from the spec's words, for comparison with the code's
`get_target_utility`). -/
noncomputable def spec_target (mu beta t : ℝ) : ℝ := mu + (1 - mu) * (1 - t ^ beta)

/-- Concrete session: two bids of self-utility `1/2` and `1`, predicted
opponent utility `1/2`, the agent's configured `mu = 0.8`, MAX mode. -/
def envC2 : Env :=
  { allBids := [[0], [1]]
    u := fun b => if b = [0] then 1/2 else 1
    opp := fun _ => 1/2
    mu := 4/5
    T := 4/5
    useAverage := false }

/-- State after the first exchange: last sent `[0]`, last received `[1]`. -/
def sC2 : AgentState := { initState with lastSentBid := some [0], lastReceivedBid := some [1] }

/-- A domain with zero bids (and a zero self-utility profile). -/
def envC3 : Env :=
  { allBids := []
    u := fun _ => 0
    opp := fun _ => 0
    mu := 4/5
    T := 4/5
    useAverage := false }

/-- Session for the AVERAGE-mode acceptance scenario: incoming bids of
self-utility `0.5, 0.6, 0.7, 0.65`, a best counter-offer of self-utility
`0.9`, `T = 0.98`, AVERAGE mode. -/
def envC5 : Env :=
  { allBids := [[4]]
    u := fun b => if b = [0] then 1/2 else if b = [1] then 3/5 else if b = [2] then 7/10
      else if b = [3] then 13/20 else if b = [4] then 9/10 else 0
    opp := fun _ => 0
    mu := 4/5
    T := 98/100
    useAverage := true }

/-- Freshly started session in `envC5` after the first opponent offer. -/
def sC5_0 : AgentState := { initState with lastReceivedBid := some [0], hasOpponentModel := true }

/-- `sC5_0` after evaluating the bid of utility `0.5` (counter-offer `[4]`
of utility `0.9` computed and cached). -/
def sC5_1 : AgentState :=
  { lastReceivedBid := some [0]
    lastSentBid := some [4]
    hasOpponentModel := true
    maxUtilityReceived := 1/2
    totalUtilityReceived := 1/2
    numberOfBidsReceived := 1
    lastPredictedBidUtility := some (9/10) }

/-- `sC5_1` after evaluating the bid of utility `0.6`. -/
def sC5_2 : AgentState :=
  { sC5_1 with maxUtilityReceived := 3/5, totalUtilityReceived := 11/10, numberOfBidsReceived := 2 }

/-- `sC5_2` after evaluating the bid of utility `0.7`. -/
def sC5_3 : AgentState :=
  { sC5_1 with maxUtilityReceived := 7/10, totalUtilityReceived := 9/5, numberOfBidsReceived := 3 }

/-- `sC5_3` after evaluating the bid of utility `0.65`. -/
def sC5_4 : AgentState :=
  { sC5_1 with maxUtilityReceived := 7/10, totalUtilityReceived := 49/20, numberOfBidsReceived := 4 }

/-- One-bid domain whose only utility value is the maximum `1`. -/
def envC4w : Env :=
  { allBids := [[0]]
    u := fun _ => 1
    opp := fun _ => 0
    mu := 4/5
    T := 4/5
    useAverage := false }

/-- Result state of evaluating the maximal bid in `envC4w` from the start
state. -/
def sC4w : AgentState :=
  { lastReceivedBid := none
    lastSentBid := some [0]
    hasOpponentModel := false
    maxUtilityReceived := 1
    totalUtilityReceived := 1
    numberOfBidsReceived := 1
    lastPredictedBidUtility := some 1 }

theorem update_lastPredicted (s : AgentState) (u : ℚ) :
    (update_received_bid_utility s u).lastPredictedBidUtility = s.lastPredictedBidUtility := rfl

theorem update_lastSent (s : AgentState) (u : ℚ) :
    (update_received_bid_utility s u).lastSentBid = s.lastSentBid := rfl

theorem update_lastReceived (s : AgentState) (u : ℚ) :
    (update_received_bid_utility s u).lastReceivedBid = s.lastReceivedBid := rfl

theorem update_hasOpponentModel (s : AgentState) (u : ℚ) :
    (update_received_bid_utility s u).hasOpponentModel = s.hasOpponentModel := rfl

theorem get_acceptance_threshold_update (env : Env) (s : AgentState) (u : ℚ) :
    get_acceptance_threshold env (update_received_bid_utility s u) =
      if env.useAverage then
        (s.totalUtilityReceived + u) / ((s.numberOfBidsReceived : ℚ) + 1)
      else max s.maxUtilityReceived u := by
  unfold get_acceptance_threshold update_received_bid_utility
  cases env.useAverage with
  | false => simp
  | true => simp [Nat.cast_add]

theorem pickFirstMax_mem : ∀ {l : List (Bid × ℚ)} {p : Bid × ℚ}, pickFirstMax l = some p → p ∈ l
  | [], p, h => by simp [pickFirstMax] at h
  | (b, k) :: rest, p, h => by
    rw [pickFirstMax] at h
    cases hr : pickFirstMax rest with
    | none => rw [hr] at h; injection h with h; exact h ▸ List.mem_cons_self _ _
    | some q =>
      rw [hr] at h
      obtain ⟨b', k'⟩ := q
      dsimp only at h
      by_cases hk : k < k'
      · rw [if_pos hk] at h
        injection h with h
        exact List.mem_cons_of_mem _ (h ▸ pickFirstMax_mem hr)
      · rw [if_neg hk] at h
        injection h with h
        exact h ▸ List.mem_cons_self _ _

theorem pickFirstMax_isSome : ∀ {l : List (Bid × ℚ)}, l ≠ [] → ∃ p, pickFirstMax l = some p
  | [], h => absurd rfl h
  | (b, k) :: rest, _ => by
    rw [pickFirstMax]
    cases hr : pickFirstMax rest with
    | none => exact ⟨_, rfl⟩
    | some q =>
      obtain ⟨b', k'⟩ := q
      dsimp only
      by_cases hk : k < k'
      · exact ⟨_, by rw [if_pos hk]⟩
      · exact ⟨_, by rw [if_neg hk]⟩

theorem keyBySimilarity_fst (recv : Bid) :
    ∀ (l : List Bid) (keyed : List (Bid × ℚ)),
      keyBySimilarity recv l = .ok keyed → keyed.map Prod.fst = l
  | [], keyed, h => by
    rw [keyBySimilarity] at h
    injection h with h
    simp [← h]
  | b :: l, keyed, h => by
    rw [keyBySimilarity] at h
    simp only [bind, Except.bind] at h
    cases hs : compute_similarity b recv with
    | error e => rw [hs] at h; exact absurd h (by simp)
    | ok v =>
      rw [hs] at h
      dsimp only at h
      cases hm : keyBySimilarity recv l with
      | error e => rw [hm] at h; exact absurd h (by simp)
      | ok rest =>
        rw [hm] at h
        dsimp only at h
        injection h with h
        subst h
        simp [keyBySimilarity_fst recv l rest hm]

theorem keyBySimilarity_ok (recv : Bid) :
    ∀ (l : List Bid), (∀ b ∈ l, b ≠ []) →
      ∃ keyed, keyBySimilarity recv l = .ok keyed
  | [], _ => ⟨[], rfl⟩
  | b :: l, h => by
    obtain ⟨keyed, hk⟩ := keyBySimilarity_ok recv l (fun x hx => h x (List.mem_cons_of_mem _ hx))
    have hb : b ≠ [] := h b (List.mem_cons_self _ _)
    refine ⟨(b, ((b.zip recv).countP (fun p => p.1 = p.2) : ℚ) / (b.length : ℚ)) :: keyed, ?_⟩
    rw [keyBySimilarity]
    simp only [bind, Except.bind]
    rw [compute_similarity, if_neg (by simpa using hb), hk]

theorem candidate_bids_subset (env : Env) (target : ℚ) :
    ∀ b ∈ candidate_bids env target, b ∈ env.allBids := by
  intro b hb
  unfold candidate_bids at hb
  dsimp only at hb
  repeat' split at hb
  all_goals first
    | exact hb
    | exact List.mem_of_mem_filter hb

theorem candidate_bids_ne_nil (env : Env) (target : ℚ) (h : env.allBids ≠ []) :
    candidate_bids env target ≠ [] := by
  unfold candidate_bids
  dsimp only
  repeat' split
  all_goals first
    | exact h
    | (rename_i hx; intro hnil; rw [hnil] at hx; simp at hx)

theorem find_bid_from_target_ok {env : Env} {t : ℚ} {s : AgentState} {target : ℚ}
    {nb : Bid} {s1 : AgentState}
    (h : find_bid_from_target env t s target = .ok (nb, s1)) :
    s1 = { s with lastSentBid := some nb } ∧ nb ∈ env.allBids := by
  unfold find_bid_from_target at h
  cases hrb : s.lastReceivedBid with
  | none =>
    rw [hrb] at h
    simp only [bind, Except.bind] at h
    cases hp : pickFirstMax ((candidate_bids env target).map (fun b => (b, score_bid env t s b))) with
    | none => rw [hp] at h; exact absurd h (by simp)
    | some p =>
      obtain ⟨b, k⟩ := p
      rw [hp] at h
      dsimp only at h
      injection h with h
      injection h with h1 h2
      refine ⟨by rw [← h2, h1], ?_⟩
      rw [← h1]
      have hmem := pickFirstMax_mem hp
      obtain ⟨a, ha, hab⟩ := List.mem_map.mp hmem
      have hax : a = b := congrArg Prod.fst hab
      rw [← hax]
      exact candidate_bids_subset env target a ha
  | some recv =>
    rw [hrb] at h
    simp only [bind, Except.bind] at h
    cases hkk : keyBySimilarity recv (candidate_bids env target) with
    | error e => rw [hkk] at h; exact absurd h (by simp)
    | ok keyed =>
      rw [hkk] at h
      dsimp only at h
      cases hp : pickFirstMax keyed with
      | none => rw [hp] at h; exact absurd h (by simp)
      | some p =>
        obtain ⟨b, k⟩ := p
        rw [hp] at h
        dsimp only at h
        injection h with h
        injection h with h1 h2
        refine ⟨by rw [← h2, h1], ?_⟩
        rw [← h1]
        have hmem := pickFirstMax_mem hp
        have hx : b ∈ keyed.map Prod.fst := List.mem_map.mpr ⟨(b, k), hmem, rfl⟩
        rw [keyBySimilarity_fst recv _ _ hkk] at hx
        exact candidate_bids_subset env target b hx

theorem find_bid_from_target_total {env : Env} (t : ℚ) (s : AgentState) (target : ℚ)
    (hne : env.allBids ≠ []) (hb : ∀ b ∈ env.allBids, b ≠ []) :
    ∃ p, find_bid_from_target env t s target = .ok p := by
  unfold find_bid_from_target
  have hcne : candidate_bids env target ≠ [] := candidate_bids_ne_nil env target hne
  cases hrb : s.lastReceivedBid with
  | none =>
    simp only [hrb, bind, Except.bind]
    have hkne : (candidate_bids env target).map (fun b => (b, score_bid env t s b)) ≠ [] := by
      simpa using hcne
    obtain ⟨p, hp⟩ := pickFirstMax_isSome hkne
    obtain ⟨b, k⟩ := p
    simp only [hp]
    exact ⟨_, rfl⟩
  | some recv =>
    obtain ⟨keyed, hkk⟩ :=
      keyBySimilarity_ok recv (candidate_bids env target)
        (fun x hx => hb x (candidate_bids_subset env target x hx))
    simp only [hrb, hkk, bind, Except.bind]
    have hkne : keyed ≠ [] := by
      intro hk
      rw [hk] at hkk
      have := keyBySimilarity_fst recv _ _ hkk
      simp at this
      exact hcne this
    obtain ⟨p, hp⟩ := pickFirstMax_isSome hkne
    obtain ⟨b, k⟩ := p
    simp only [hp]
    exact ⟨_, rfl⟩

theorem find_bid_ok {env : Env} {t : ℚ} {s : AgentState} {nb : Bid} {s1 : AgentState}
    (h : find_bid env t s = .ok (nb, s1)) :
    s1 = { s with lastSentBid := some nb } ∧ nb ∈ env.allBids := by
  unfold find_bid at h
  cases hg : get_target_utility env s with
  | error e => rw [hg] at h; exact absurd h (by simp [bind, Except.bind])
  | ok target =>
    rw [hg] at h
    simp only [bind, Except.bind] at h
    exact find_bid_from_target_ok h

theorem turnStep_deterministic {env : Env} {t : ℚ} {s : AgentState}
    {a1 a2 : TurnAction} {s1 s2 : AgentState}
    (h1 : TurnStep env t s a1 s1) (h2 : TurnStep env t s a2 s2) :
    a1 = a2 ∧ s1 = s2 := by
  cases h1 with
  | accept b sb hrb hacc =>
    cases h2 with
    | accept b' sb' hrb' hacc' =>
      have hb : b = b' := by rw [hrb] at hrb'; exact Option.some.inj hrb'
      subst hb
      have hp := hacc.symm.trans hacc'
      simp only [Except.ok.injEq, Prod.mk.injEq, true_and] at hp
      exact ⟨rfl, hp⟩
    | counter b' sb' nb' s2' hrb' hacc' hfb' =>
      have hb : b = b' := by rw [hrb] at hrb'; exact Option.some.inj hrb'
      subst hb
      have hp := hacc.symm.trans hacc'
      simp at hp
    | firstOffer nb' s2' hrb' hfb' => rw [hrb] at hrb'; exact absurd hrb' (by simp)
  | counter b sb nb s2x hrb hacc hfb =>
    cases h2 with
    | accept b' sb' hrb' hacc' =>
      have hb : b = b' := by rw [hrb] at hrb'; exact Option.some.inj hrb'
      subst hb
      have hp := hacc.symm.trans hacc'
      simp at hp
    | counter b' sb' nb' s2' hrb' hacc' hfb' =>
      have hb : b = b' := by rw [hrb] at hrb'; exact Option.some.inj hrb'
      subst hb
      have hp := hacc.symm.trans hacc'
      simp only [Except.ok.injEq, Prod.mk.injEq, true_and] at hp
      subst hp
      have hq := hfb.symm.trans hfb'
      simp only [Except.ok.injEq, Prod.mk.injEq] at hq
      exact ⟨by rw [hq.1], hq.2⟩
    | firstOffer nb' s2' hrb' hfb' => rw [hrb] at hrb'; exact absurd hrb' (by simp)
  | firstOffer nb s2x hrb hfb =>
    cases h2 with
    | accept b' sb' hrb' hacc' => rw [hrb] at hrb'; exact absurd hrb' (by simp)
    | counter b' sb' nb' s2' hrb' hacc' hfb' => rw [hrb] at hrb'; exact absurd hrb' (by simp)
    | firstOffer nb' s2' hrb' hfb' =>
      have hq := hfb.symm.trans hfb'
      simp only [Except.ok.injEq, Prod.mk.injEq] at hq
      exact ⟨by rw [hq.1], hq.2⟩

theorem sa_step1 : should_accept envC5 (1/2) sC5_0 (some [0]) = .ok (false, sC5_1) := by
  norm_num [should_accept, envC5, sC5_0, sC5_1, initState, update_received_bid_utility,
    get_acceptance_threshold, find_bid, get_target_utility, find_bid_from_target,
    candidate_bids, keyBySimilarity, compute_similarity, score_bid, pickFirstMax,
    bind, Except.bind, abs_le]

theorem sa_step2 : should_accept envC5 (1/2) sC5_1 (some [1]) = .ok (false, sC5_2) := by
  norm_num [should_accept, envC5, sC5_1, sC5_2, update_received_bid_utility,
    get_acceptance_threshold, bind, Except.bind]

theorem sa_step3 : should_accept envC5 (1/2) sC5_2 (some [2]) = .ok (false, sC5_3) := by
  norm_num [should_accept, envC5, sC5_2, sC5_3, sC5_1, update_received_bid_utility,
    get_acceptance_threshold, bind, Except.bind]

theorem sa_step4 : should_accept envC5 (99/100) sC5_3 (some [3]) = .ok (true, sC5_4) := by
  norm_num [should_accept, envC5, sC5_3, sC5_4, sC5_1, update_received_bid_utility,
    get_acceptance_threshold, bind, Except.bind]

theorem sa_first_late : should_accept envC5 (99/100) sC5_0 (some [0]) = .ok (true, sC5_1) := by
  norm_num [should_accept, envC5, sC5_0, sC5_1, initState, update_received_bid_utility,
    get_acceptance_threshold, find_bid, get_target_utility, find_bid_from_target,
    candidate_bids, keyBySimilarity, compute_similarity, score_bid, pickFirstMax,
    bind, Except.bind, abs_le]

theorem fb_after_step1 : find_bid envC5 (1/2) sC5_1 = .ok ([4], sC5_1) := by
  norm_num [find_bid, envC5, sC5_1, get_target_utility, find_bid_from_target,
    candidate_bids, keyBySimilarity, compute_similarity, pickFirstMax,
    bind, Except.bind, abs_le]

/-- C1: for every non-None bid on which `should_accept` returns, the result
is true iff AC_next or (AC_time and AC_const): the bid's self-utility is at
least the cached predicted-next-offer utility (which is always set after
the call), or the elapsed-time fraction exceeds `T` and the bid's
self-utility is at least the acceptance threshold — the running average of
received-bid self-utilities (current bid included) in AVERAGE mode and the
running max in MAX mode. -/
theorem should_accept_decision_rule (env : Env) (t : ℚ) (s : AgentState) (b : Bid)
    (r : Bool) (s' : AgentState)
    (h : should_accept env t s (some b) = .ok (r, s')) :
    s'.lastPredictedBidUtility ≠ none ∧
    (r = true ↔ (s'.lastPredictedBidUtility.getD 0 ≤ env.u b ∨
      (env.T < t ∧
        get_acceptance_threshold env (update_received_bid_utility s (env.u b)) ≤ env.u b))) ∧
    get_acceptance_threshold env (update_received_bid_utility s (env.u b)) =
      (if env.useAverage then
        (s.totalUtilityReceived + env.u b) / ((s.numberOfBidsReceived : ℚ) + 1)
      else max s.maxUtilityReceived (env.u b)) := by
  suffices hx : s'.lastPredictedBidUtility ≠ none ∧
      (r = true ↔ (s'.lastPredictedBidUtility.getD 0 ≤ env.u b ∨
        (env.T < t ∧
          get_acceptance_threshold env (update_received_bid_utility s (env.u b)) ≤ env.u b))) by
    exact ⟨hx.1, hx.2, get_acceptance_threshold_update env s (env.u b)⟩
  unfold should_accept at h
  cases hc : s.lastPredictedBidUtility with
  | some c =>
    simp only [update_lastPredicted, hc, bind, Except.bind] at h
    injection h with h1
    injection h1 with hr hs
    subst hr
    have hcache : s'.lastPredictedBidUtility = some c := by
      rw [← hs, update_lastPredicted, hc]
    refine ⟨by rw [hcache]; simp, ?_⟩
    rw [hcache]
    simp [Bool.or_eq_true, Bool.and_eq_true, decide_eq_true_iff]
  | none =>
    simp only [update_lastPredicted, hc, bind, Except.bind] at h
    cases hfb : find_bid env t (update_received_bid_utility s (env.u b)) with
    | error e => rw [hfb] at h; exact absurd h (by simp)
    | ok p =>
      obtain ⟨nb, st⟩ := p
      rw [hfb] at h
      simp only [Except.bind] at h
      injection h with h1
      injection h1 with hr hs
      subst hr
      have hcache : s'.lastPredictedBidUtility = some (env.u nb) := by rw [← hs]
      refine ⟨by rw [hcache]; simp, ?_⟩
      rw [hcache]
      simp [Bool.or_eq_true, Bool.and_eq_true, decide_eq_true_iff]

/-- C1 witness: the decision rule applied to the concrete fourth evaluation
of the AVERAGE-mode session. -/
theorem should_accept_decision_rule_witness :
    sC5_4.lastPredictedBidUtility ≠ none ∧
    (true = true ↔ (sC5_4.lastPredictedBidUtility.getD 0 ≤ envC5.u [3] ∨
      (envC5.T < 99/100 ∧
        get_acceptance_threshold envC5 (update_received_bid_utility sC5_3 (envC5.u [3])) ≤ envC5.u [3]))) ∧
    get_acceptance_threshold envC5 (update_received_bid_utility sC5_3 (envC5.u [3])) =
      (if envC5.useAverage then
        (sC5_3.totalUtilityReceived + envC5.u [3]) / ((sC5_3.numberOfBidsReceived : ℚ) + 1)
      else max sC5_3.maxUtilityReceived (envC5.u [3])) :=
  should_accept_decision_rule envC5 (99/100) sC5_3 [3] true sC5_4 sa_step4

/-- C2 counterexample: after the first turn the code's target utility is
the ratio-based value — here `0.5`, whatever the elapsed time — while the
spec's time-based curve `μ + (1-μ)(1-t^β)` with the agent's configuration
`μ = 0.8`, `β = 0.1` evaluates to `0.8` at `t = 1`. -/
theorem target_utility_not_time_based :
    get_target_utility envC2 sC2 = .ok (1/2) ∧
    spec_target (4/5) (1/10) 1 = 4/5 ∧
    ((1/2 : ℚ) : ℝ) ≠ spec_target (4/5) (1/10) 1 := by
  refine ⟨?_, ?_, ?_⟩
  · simp only [get_target_utility, envC2, sC2, initState]
    norm_num
  · unfold spec_target
    rw [Real.one_rpow]
    ring
  · unfold spec_target
    rw [Real.one_rpow]
    norm_num

/-- C2 (amended): on the first turn (no last sent or no last received bid)
the target utility is `1.0`; afterwards it is the ratio-based concession
`own + ((1-μ)/own)·(opp(lastReceived) − own)` computed from the last sent
bid's self-utility (nonzero) and the opponent model's estimate of the last
received bid — not a function of the elapsed-time fraction, which
`get_target_utility` never reads. -/
theorem target_utility_ratio_form (env : Env) (s : AgentState) :
    ((s.lastSentBid = none ∨ s.lastReceivedBid = none) → get_target_utility env s = .ok 1) ∧
    (∀ sb rb, s.lastSentBid = some sb → s.lastReceivedBid = some rb → env.u sb ≠ 0 →
      get_target_utility env s =
        .ok (env.u sb + ((1 - env.mu) / env.u sb) * (env.opp rb - env.u sb))) := by
  constructor
  · rintro (h | h)
    · unfold get_target_utility
      rw [h]
    · unfold get_target_utility
      rw [h]
      cases hsb : s.lastSentBid <;> rfl
  · intro sb rb hsb hrb hne
    unfold get_target_utility
    rw [hsb, hrb]
    dsimp only
    rw [if_neg hne]

/-- C2 witness: the first-turn value and the ratio formula at a concrete
post-first-turn state. -/
theorem target_utility_ratio_form_witness :
    get_target_utility envC2 initState = .ok 1 ∧
    get_target_utility envC2 sC2 =
      .ok (envC2.u [0] + ((1 - envC2.mu) / envC2.u [0]) * (envC2.opp [1] - envC2.u [0])) :=
  ⟨(target_utility_ratio_form envC2 initState).1 (Or.inl rfl),
   (target_utility_ratio_form envC2 sC2).2 [0] [1] rfl rfl (by norm_num [envC2])⟩

/-- C3 counterexample: on a domain with zero bids `find_bid` fails with a
list-index error (`candidate_bids[0]` on an empty list); no
`EmptyBidSpaceError` exists in the code. -/
theorem find_bid_empty_domain_index_error :
    find_bid envC3 0 initState = .error PyError.indexError ∧
    PyError.indexError ≠ PyError.emptyBidSpaceError :=
  ⟨rfl, by decide⟩

/-- C3 (amended): for every non-empty bid space whose bids have at least
one issue and every target utility in `[0,1]` (in fact for every target),
the three-tier fallback chain yields a non-empty candidate set, and the
search returns a bid of the bid space, recording it as last sent; on a
domain with zero bids it fails with an `IndexError`, not the spec's
`EmptyBidSpaceError`. -/
theorem find_bid_nonempty_domain_ok (env : Env) (t : ℚ) (s : AgentState) (target : ℚ)
    (hne : env.allBids ≠ []) (hiss : ∀ b ∈ env.allBids, b ≠ [])
    (h0 : 0 ≤ target) (h1 : target ≤ 1) :
    ∃ nb s1, find_bid_from_target env t s target = .ok (nb, s1) ∧
      nb ∈ env.allBids ∧ s1.lastSentBid = some nb := by
  obtain ⟨⟨nb, s1⟩, hp⟩ := find_bid_from_target_total t s target hne hiss
  obtain ⟨hs1, hmem⟩ := find_bid_from_target_ok hp
  exact ⟨nb, s1, hp, hmem, by rw [hs1]⟩

/-- C3 witness: the search succeeds on a concrete two-bid domain. -/
theorem find_bid_nonempty_domain_ok_witness :
    envC2.allBids ≠ [] ∧
    (∃ nb s1, find_bid_from_target envC2 0 initState (1/2) = .ok (nb, s1) ∧
      nb ∈ envC2.allBids ∧ s1.lastSentBid = some nb) :=
  ⟨by simp [envC2],
   find_bid_nonempty_domain_ok envC2 0 initState (1/2) (by simp [envC2]) (by simp [envC2])
     (by norm_num) (by norm_num)⟩

/-- C4: whenever `should_accept` returns on a non-None bid of maximal
self-utility `1.0` (all self-utilities being at most `1.0`, and the cached
predicted-next-offer utility, when already present, likewise), it returns
true — AC_next holds — regardless of the elapsed time and of the mode. -/
theorem accept_maximal_utility (env : Env) (t : ℚ) (s : AgentState) (b : Bid)
    (r : Bool) (s' : AgentState)
    (hU : ∀ b', env.u b' ≤ 1) (hb : env.u b = 1)
    (hc : ∀ c, s.lastPredictedBidUtility = some c → c ≤ 1)
    (h : should_accept env t s (some b) = .ok (r, s')) : r = true := by
  unfold should_accept at h
  cases hcc : s.lastPredictedBidUtility with
  | some c =>
    simp only [update_lastPredicted, hcc, bind, Except.bind] at h
    injection h with h1
    injection h1 with hr hs
    have hd : decide (c ≤ env.u b) = true := decide_eq_true (hb ▸ hc c hcc)
    rw [← hr, hd, Bool.true_or]
  | none =>
    simp only [update_lastPredicted, hcc, bind, Except.bind] at h
    cases hfb : find_bid env t (update_received_bid_utility s (env.u b)) with
    | error e => rw [hfb] at h; exact absurd h (by simp)
    | ok p =>
      obtain ⟨nb, st⟩ := p
      rw [hfb] at h
      simp only [Except.bind] at h
      injection h with h1
      injection h1 with hr hs
      have hd : decide (env.u nb ≤ env.u b) = true := decide_eq_true (hb ▸ hU nb)
      rw [← hr, hd, Bool.true_or]

/-- C4 witness: a maximal-utility bid is accepted at `t = 0` in a concrete
one-bid session. -/
theorem accept_maximal_utility_witness :
    envC4w.u [0] = 1 ∧ true = true :=
  ⟨rfl,
   accept_maximal_utility envC4w 0 initState [0] true sC4w
     (fun _ => le_refl 1) rfl
     (fun c hcc => absurd hcc (by simp [initState]))
     (by norm_num [should_accept, envC4w, sC4w, initState, update_received_bid_utility,
        get_acceptance_threshold, find_bid, get_target_utility, find_bid_from_target,
        candidate_bids, keyBySimilarity, compute_similarity, score_bid, pickFirstMax,
        bind, Except.bind, abs_le])⟩

/-- C5: in AVERAGE mode with `T = 0.98`, after three received bids of
self-utility `0.5, 0.6, 0.7` have been evaluated (and rejected at
`t = 0.5`), a fourth incoming bid of self-utility `0.65` at `t = 0.99` is
accepted although AC_next is false (the cached predicted-next-offer
utility is `0.9 > 0.65`). -/
theorem average_mode_scenario :
    envC5.T = 98/100 ∧ envC5.useAverage = true ∧
    envC5.u [0] = 1/2 ∧ envC5.u [1] = 3/5 ∧ envC5.u [2] = 7/10 ∧ envC5.u [3] = 13/20 ∧
    should_accept envC5 (1/2) sC5_0 (some [0]) = .ok (false, sC5_1) ∧
    should_accept envC5 (1/2) sC5_1 (some [1]) = .ok (false, sC5_2) ∧
    should_accept envC5 (1/2) sC5_2 (some [2]) = .ok (false, sC5_3) ∧
    sC5_3.lastPredictedBidUtility = some (9/10) ∧ (13/20 : ℚ) < 9/10 ∧
    should_accept envC5 (99/100) sC5_3 (some [3]) = .ok (true, sC5_4) :=
  ⟨rfl, rfl, by norm_num [envC5], by norm_num [envC5], by norm_num [envC5], by norm_num [envC5],
   sa_step1, sa_step2, sa_step3, rfl, by norm_num, sa_step4⟩

/-- C6: the predicted-next-offer utility is computed once per session:
when the cache is empty, a returning `should_accept` evaluation has
invoked `find_bid` on the stats-updated current state and stored the
self-utility of the returned bid; when the cache is filled, the call
returns with only the running statistics updated — the cache is unchanged
and the search is not invoked. -/
theorem predicted_next_cached_once (env : Env) (t : ℚ) (s : AgentState) (b : Bid)
    (r : Bool) (s' : AgentState)
    (h : should_accept env t s (some b) = .ok (r, s')) :
    (∀ c, s.lastPredictedBidUtility = some c →
      s' = update_received_bid_utility s (env.u b) ∧ s'.lastPredictedBidUtility = some c) ∧
    (s.lastPredictedBidUtility = none →
      (find_bid env t (update_received_bid_utility s (env.u b))).map
          (fun p => { p.2 with lastPredictedBidUtility := some (env.u p.1) }) = .ok s') := by
  constructor
  · intro c hc
    unfold should_accept at h
    simp only [update_lastPredicted, hc, bind, Except.bind] at h
    injection h with h1
    injection h1 with hr hs
    exact ⟨hs.symm, by rw [← hs, update_lastPredicted, hc]⟩
  · intro hc
    unfold should_accept at h
    simp only [update_lastPredicted, hc, bind, Except.bind] at h
    cases hfb : find_bid env t (update_received_bid_utility s (env.u b)) with
    | error e => rw [hfb] at h; exact absurd h (by simp)
    | ok p =>
      obtain ⟨nb, st⟩ := p
      rw [hfb] at h
      simp only [Except.bind] at h
      injection h with h1
      injection h1 with hr hs
      simp only [Except.map]
      exact congrArg Except.ok hs

/-- C6 witness: in the concrete AVERAGE-mode session, the second
evaluation reuses the cached value `0.9` untouched, and the first
evaluation's final state is the `find_bid` result with the cache set. -/
theorem predicted_next_cached_once_witness :
    (sC5_2 = update_received_bid_utility sC5_1 (envC5.u [1]) ∧
      sC5_2.lastPredictedBidUtility = some (9/10)) ∧
    (find_bid envC5 (1/2) (update_received_bid_utility sC5_0 (envC5.u [0]))).map
        (fun p => { p.2 with lastPredictedBidUtility := some (envC5.u p.1) }) = .ok sC5_1 :=
  ⟨(predicted_next_cached_once envC5 (1/2) sC5_1 [1] false sC5_2 sa_step2).1 (9/10) rfl,
   (predicted_next_cached_once envC5 (1/2) sC5_0 [0] false sC5_1 sa_step1).2 rfl⟩

/-- C7: determinism — the turn relation built from `should_accept` and
`find_bid` relates a given environment, clock reading and state to at most
one action/state pair, so two session runs over the same configuration,
opponent-bid sequence and clock sequence produce the same action sequence
and the same final state. -/
theorem negotiation_deterministic {env : Env} {inputs : List (Option Bid × ℚ)}
    {s : AgentState} {acts1 acts2 : List TurnAction} {s1 s2 : AgentState}
    (h1 : SessionRun env inputs s acts1 s1) (h2 : SessionRun env inputs s acts2 s2) :
    acts1 = acts2 ∧ s1 = s2 := by
  induction h1 generalizing acts2 s2 with
  | nil s =>
    cases h2
    exact ⟨rfl, rfl⟩
  | cons ob t rest sx sx1 a acts sx2 hstep hrest ih =>
    cases h2 with
    | cons _ _ _ _ sy1 a' acts' sy2 hstep' hrest' =>
      obtain ⟨ha, hs⟩ := turnStep_deterministic hstep hstep'
      subst ha
      subst hs
      obtain ⟨hacts, hfinal⟩ := ih hrest'
      exact ⟨by rw [hacts], hfinal⟩

/-- C7 witness: a concrete one-round run (offer received, counter-offer
sent) compared with itself. -/
theorem negotiation_deterministic_witness :
    [TurnAction.offer [4]] = [TurnAction.offer [4]] ∧ sC5_1 = sC5_1 := by
  have hrun : SessionRun envC5 [(some [0], 1/2)] initState [TurnAction.offer [4]] sC5_1 :=
    SessionRun.cons (some [0]) (1/2) [] initState sC5_1 (TurnAction.offer [4]) [] sC5_1
      (TurnStep.counter [0] sC5_1 [4] sC5_1 rfl sa_step1 fb_after_step1)
      (SessionRun.nil sC5_1)
  exact negotiation_deterministic hrun hrun

/-- C8: since the running statistics are updated with the current bid
before the threshold is computed, the first evaluated bid's threshold is
its own utility in AVERAGE mode and `max 0 utility` in MAX mode, so
AC_const holds for it (utilities being non-negative); hence if the
elapsed-time fraction exceeds `T`, a returning first evaluation accepts
the bid however low its self-utility. -/
theorem first_bid_meets_const (env : Env) (t : ℚ) (s : AgentState) (b : Bid)
    (r : Bool) (s' : AgentState)
    (hn : s.numberOfBidsReceived = 0) (htot : s.totalUtilityReceived = 0)
    (hmax : s.maxUtilityReceived = 0) (hu : 0 ≤ env.u b) :
    get_acceptance_threshold env (update_received_bid_utility s (env.u b)) =
      (if env.useAverage then env.u b else max 0 (env.u b)) ∧
    (env.T < t → should_accept env t s (some b) = .ok (r, s') → r = true) := by
  have hthr : get_acceptance_threshold env (update_received_bid_utility s (env.u b)) =
      (if env.useAverage then env.u b else max 0 (env.u b)) := by
    rw [get_acceptance_threshold_update, hn, htot, hmax]
    cases env.useAverage <;> simp
  refine ⟨hthr, fun ht h => ?_⟩
  have hconst : get_acceptance_threshold env (update_received_bid_utility s (env.u b)) ≤ env.u b := by
    rw [hthr]
    cases env.useAverage with
    | false => simpa using max_le hu (le_refl (env.u b))
    | true => simp
  unfold should_accept at h
  cases hcc : s.lastPredictedBidUtility with
  | some c =>
    simp only [update_lastPredicted, hcc, bind, Except.bind] at h
    injection h with h1
    injection h1 with hr hs
    rw [← hr, decide_eq_true ht, decide_eq_true hconst, Bool.and_self, Bool.or_true]
  | none =>
    simp only [update_lastPredicted, hcc, bind, Except.bind] at h
    cases hfb : find_bid env t (update_received_bid_utility s (env.u b)) with
    | error e => rw [hfb] at h; exact absurd h (by simp)
    | ok p =>
      obtain ⟨nb, st⟩ := p
      rw [hfb] at h
      simp only [Except.bind] at h
      injection h with h1
      injection h1 with hr hs
      rw [← hr, decide_eq_true ht, decide_eq_true hconst, Bool.and_self, Bool.or_true]

/-- C8 witness: at `t = 0.99 > T = 0.98` the very first evaluated bid, of
self-utility only `0.5`, is accepted. -/
theorem first_bid_meets_const_witness :
    get_acceptance_threshold envC5 (update_received_bid_utility sC5_0 (envC5.u [0])) =
      (if envC5.useAverage then envC5.u [0] else max 0 (envC5.u [0])) ∧
    true = true :=
  ⟨(first_bid_meets_const envC5 (99/100) sC5_0 [0] true sC5_1 rfl rfl rfl
      (by norm_num [envC5])).1,
   (first_bid_meets_const envC5 (99/100) sC5_0 [0] true sC5_1 rfl rfl rfl
      (by norm_num [envC5])).2 (by norm_num [envC5]) sa_first_late⟩

/-- C9: evaluating acceptance has frame effects on the bidding state: when
the cache is empty, a returning `should_accept` call has run `find_bid`,
whose selected bid becomes `last_sent_bid` even if the evaluated offer is
accepted; when the cache is filled, every agent field other than the
running statistics (last received bid, last sent bid, opponent-model flag,
cache) is left unchanged. -/
theorem should_accept_frame_effects (env : Env) (t : ℚ) (s : AgentState) (b : Bid) :
    (s.lastPredictedBidUtility = none → ∀ r s', should_accept env t s (some b) = .ok (r, s') →
      (find_bid env t (update_received_bid_utility s (env.u b))).map (fun p => some p.1) =
        .ok s'.lastSentBid) ∧
    (∀ c, s.lastPredictedBidUtility = some c → ∀ r s', should_accept env t s (some b) = .ok (r, s') →
      s'.lastSentBid = s.lastSentBid ∧ s'.lastReceivedBid = s.lastReceivedBid ∧
      s'.hasOpponentModel = s.hasOpponentModel ∧
      s'.lastPredictedBidUtility = s.lastPredictedBidUtility) := by
  constructor
  · intro hc r s' h
    unfold should_accept at h
    simp only [update_lastPredicted, hc, bind, Except.bind] at h
    cases hfb : find_bid env t (update_received_bid_utility s (env.u b)) with
    | error e => rw [hfb] at h; exact absurd h (by simp)
    | ok p =>
      obtain ⟨nb, st⟩ := p
      rw [hfb] at h
      simp only [Except.bind] at h
      injection h with h1
      injection h1 with hr hs
      obtain ⟨hshape, _⟩ := find_bid_ok hfb
      simp only [Except.map]
      refine congrArg Except.ok ?_
      rw [← hs]
      show some nb = ({ st with lastPredictedBidUtility := some (env.u nb) } : AgentState).lastSentBid
      rw [show ({ st with lastPredictedBidUtility := some (env.u nb) } : AgentState).lastSentBid
            = st.lastSentBid from rfl, hshape]
  · intro c hc r s' h
    unfold should_accept at h
    simp only [update_lastPredicted, hc, bind, Except.bind] at h
    injection h with h1
    injection h1 with hr hs
    rw [← hs]
    exact ⟨update_lastSent s (env.u b), update_lastReceived s (env.u b),
      update_hasOpponentModel s (env.u b), by rw [update_lastPredicted, hc]⟩

/-- C9 witness: in the concrete session, the first evaluation sets
`last_sent_bid` to the searched bid `[4]` although no counter-offer was
sent, and the second evaluation leaves all non-statistics fields
unchanged. -/
theorem should_accept_frame_effects_witness :
    (find_bid envC5 (1/2) (update_received_bid_utility sC5_0 (envC5.u [0]))).map
        (fun p => some p.1) = .ok sC5_1.lastSentBid ∧
    (sC5_2.lastSentBid = sC5_1.lastSentBid ∧ sC5_2.lastReceivedBid = sC5_1.lastReceivedBid ∧
      sC5_2.hasOpponentModel = sC5_1.hasOpponentModel ∧
      sC5_2.lastPredictedBidUtility = sC5_1.lastPredictedBidUtility) :=
  ⟨(should_accept_frame_effects envC5 (1/2) sC5_0 [0]).1 rfl false sC5_1 sa_step1,
   (should_accept_frame_effects envC5 (1/2) sC5_1 [1]).2 (9/10) rfl false sC5_2 sa_step2⟩

/-- C10: with both a last sent and a last received bid present,
`get_target_utility` divides `(1-μ)` by the self-utility of the last sent
bid without a guard: when that utility is nonzero it returns
`own + ((1-μ)/own)·(opp(lastReceived) − own)`, and when it is zero the
division fails with a `ZeroDivisionError`. -/
theorem target_utility_division_guard (env : Env) (s : AgentState) (sb rb : Bid)
    (hs : s.lastSentBid = some sb) (hr : s.lastReceivedBid = some rb) :
    (env.u sb ≠ 0 → get_target_utility env s =
      .ok (env.u sb + ((1 - env.mu) / env.u sb) * (env.opp rb - env.u sb))) ∧
    (env.u sb = 0 → get_target_utility env s = .error PyError.zeroDivisionError) := by
  unfold get_target_utility
  rw [hs, hr]
  dsimp only
  constructor
  · intro h; rw [if_neg h]
  · intro h; rw [if_pos h]

/-- C10 witness: the formula at a nonzero last-sent utility and the
`ZeroDivisionError` at a zero one. -/
theorem target_utility_division_guard_witness :
    get_target_utility envC2 sC2 =
      .ok (envC2.u [0] + ((1 - envC2.mu) / envC2.u [0]) * (envC2.opp [1] - envC2.u [0])) ∧
    get_target_utility envC3 sC2 = .error PyError.zeroDivisionError :=
  ⟨(target_utility_division_guard envC2 sC2 [0] [1] rfl rfl).1 (by norm_num [envC2]),
   (target_utility_division_guard envC3 sC2 [0] [1] rfl rfl).2 rfl⟩

end Group09
